import Mathlib

/-!
Shallow embedding of `modules/processing_ex.py` (stable-diffusion-webui
img2img batch orchestrator) and proofs about its specified behaviour.

Tensors are embedded as lists of rows (rows are lists of reals/rationals)
or as functions from an index type; external collaborators (torch RNG,
PIL image operations, the sampler) are abstracted as parameters, with the
control flow of the embedded functions translated line by line from the
Python source.
-/

namespace ProcessingEx

/-! ### Conditioning cache (`get_conds_with_caching`, lines 411-429)

The Python cache is a two-element list: `cache[0]` holds the previously
used `(required_prompts, steps)` key (or `None`), `cache[1]` the stored
result.  We embed the cell as a structure of two `Option` fields and
return, alongside the result and the updated cell, the number of times
the compute function was invoked during the call. -/

structure CondCache (P R : Type) where
  key : Option (List P × Nat)
  val : Option R
deriving DecidableEq

/-- `cached_uc = [None, None]` / `cached_c = [None, None]`. -/
def emptyCache (P R : Type) : CondCache P R := ⟨none, none⟩

/-- Embedding of `get_conds_with_caching(function, required_prompts, steps, cache)`:
returns the result (the stored `cache[1]`, which is `none` only if the cell was
corrupted), the updated cache cell, and how many times `function` ran. -/
def get_conds_with_caching {P R : Type} [DecidableEq P]
    (function : List P → Nat → R) (required_prompts : List P) (steps : Nat)
    (cache : CondCache P R) : Option R × CondCache P R × Nat :=
  if cache.key = some (required_prompts, steps) then
    (cache.val, cache, 0)
  else
    let r := function required_prompts steps
    (some r, ⟨some (required_prompts, steps), some r⟩, 1)

/-! ### Mask normalization (`StableDiffusionProcessingImg2ImgEx.__init__`, lines 657-661)

```python
self.batch_size = len(self.init_images)
if self.image_masks is not None and len(self.image_masks) > 0:
    if len(self.image_masks) < len(self.init_images):
        self.image_masks.extend([self.image_masks[-1]] * (self.batch_size - len(self.image_masks)))
    self.image_masks = self.image_masks[:self.batch_size]
```
-/

def normalize_image_masks {I M : Type} (init_images : List I)
    (image_masks : Option (List M)) : Option (List M) :=
  match image_masks with
  | none => none
  | some ms =>
    if h : 0 < ms.length then
      let batch_size := init_images.length
      let ms2 := if ms.length < batch_size then
          ms ++ List.replicate (batch_size - ms.length) (ms.getLast (List.length_pos.mp h))
        else ms
      some (List.take batch_size ms2)
    else some ms

/-! ### Seed expansion (`process_images_inner`, lines 386-394)

```python
if type(seed) == list:
    p.all_seeds = seed
else:
    p.all_seeds = [int(seed) + (x if p.subseed_strength == 0 else 0) for x in range(len(p.all_prompts))]

if type(subseed) == list:
    p.all_subseeds = subseed
else:
    p.all_subseeds = [int(subseed) + x for x in range(len(p.all_prompts))]
```
We embed the scalar (non-list) branch; `num` is `len(p.all_prompts)`. -/

def expand_all_seeds (seed : Int) (subseed_strength : ℚ) (num : Nat) : List Int :=
  (List.range num).map (fun (x : Nat) => seed + (if subseed_strength = 0 then (x : Int) else 0))

def expand_all_subseeds (subseed : Int) (num : Nat) : List Int :=
  (List.range num).map (fun (x : Nat) => subseed + (x : Int))

/-! ### `apply_overlay` (lines 64-81)

The image operations of the non-trivial branch (resize, paste onto a fresh
RGBA canvas, alpha-composite, mode conversions) are collaborators from
`PIL`/`modules.images`; they are abstracted as one parameter `composite`
applied exactly when the Python code reaches line 68. -/

def apply_overlay {Img Ov : Type}
    (composite : Img → Option (Int × Int × Int × Int) → Ov → Img)
    (image : Img) (paste_loc : Option (Int × Int × Int × Int)) (index : Nat)
    (overlays : Option (List Ov)) : Img :=
  match overlays with
  | none => image
  | some ovs =>
    if h : index < ovs.length then
      composite image paste_loc (ovs.get ⟨index, h⟩)
    else
      image

/-! ### Post-sample mask recomposite (`StableDiffusionProcessingImg2ImgEx.sample`, lines 801-802)

```python
if self.mask is not None:
    samples = samples * self.nmask + self.init_latent * self.mask
```
Latent tensors are embedded as functions from an index type to `ℚ`;
the product and sum are entrywise, exactly as torch broadcasts them. -/

def recomposite {ι : Type} (nmask mask init_latent samples : ι → ℚ) : ι → ℚ :=
  fun i => samples i * nmask i + init_latent i * mask i

/-! ### Grid assembly (`process_images_inner`, lines 580-594)

```python
index_of_first_image = 0
unwanted_grid_because_of_img_count = len(output_images) < 2 and opts.grid_only_if_multiple
if (opts.return_grid or opts.grid_save) and not p.do_not_save_grid and not unwanted_grid_because_of_img_count:
    grid = images.image_grid(output_images, p.batch_size)
    if opts.return_grid:
        text = infotext()
        infotexts.insert(0, text)
        ...
        output_images.insert(0, grid)
        index_of_first_image = 1
    if opts.grid_save:
        images.save_image(grid, ...)
```
`images.image_grid` is a collaborator, abstracted as `image_grid`; saving is
I/O with no effect on the returned record and is recorded as a flag. -/

structure GridOpts where
  return_grid : Bool
  grid_save : Bool
  grid_only_if_multiple : Bool
deriving DecidableEq

structure GridStage (T S : Type) where
  output_images : List T
  infotexts : List S
  index_of_first_image : Nat
  grid_assembled : Bool
deriving DecidableEq

def grid_stage {T S : Type} (o : GridOpts) (do_not_save_grid : Bool)
    (image_grid : List T → T) (grid_infotext : S)
    (output_images : List T) (infotexts : List S) : GridStage T S :=
  let unwanted_grid_because_of_img_count :=
    decide (output_images.length < 2) && o.grid_only_if_multiple
  if (o.return_grid || o.grid_save) && !do_not_save_grid &&
      !unwanted_grid_because_of_img_count then
    let grid := image_grid output_images
    if o.return_grid then
      ⟨grid :: output_images, grid_infotext :: infotexts, 1, true⟩
    else
      ⟨output_images, infotexts, 0, true⟩
  else
    ⟨output_images, infotexts, 0, false⟩

/-! ### The iteration loop of `process_images_inner` (lines 443-461)

```python
for n in range(p.n_iter):
    p.iteration = n
    if state.skipped:
        state.skipped = False
    if state.interrupted:
        break
    prompts = p.all_prompts[n * p.batch_size:(n + 1) * p.batch_size]
    ...
    if len(prompts) == 0:
        break
    ...  # conditioning, sampling, decoding, per-image postprocess
    output_images.append(image)  # per image of the batch
```
The interruption flag is re-read at the top of each iteration; we embed the
sequence of values it is observed to have as `interrupted : Nat → Bool`
(value read before iteration `n`).  Everything an iteration appends to
`output_images` is abstracted as `sample n prompts` (the whole
condition/sample/decode/postprocess body is a collaborator chain whose
outputs the claim quantifies over). -/

def batch_slice {P : Type} (all_prompts : List P) (batch_size n : Nat) : List P :=
  (all_prompts.drop (n * batch_size)).take batch_size

def run_iterations {P T : Type} (all_prompts : List P) (batch_size : Nat)
    (interrupted : Nat → Bool) (sample : Nat → List P → List T) :
    Nat → Nat → List T
  | _, 0 => []
  | n, fuel + 1 =>
    if interrupted n then []
    else
      let prompts := batch_slice all_prompts batch_size n
      if prompts.length = 0 then []
      else
        sample n prompts ++
          run_iterations all_prompts batch_size interrupted sample (n + 1) fuel

/-- The loop `for n in range(p.n_iter)` with the collected `output_images`. -/
def process_iterations {P T : Type} (all_prompts : List P) (batch_size : Nat)
    (interrupted : Nat → Bool) (sample : Nat → List P → List T)
    (n_iter : Nat) : List T :=
  run_iterations all_prompts batch_size interrupted sample 0 n_iter

/-! ### `process_images` (lines 326-355): apply overrides, run, restore

```python
def process_images(p: StableDiffusionProcessing) -> Processed:
    stored_opts = {k: opts.data[k] for k in p.override_settings.keys()}
    try:
        if sd_models.checkpoint_alisases.get(p.override_settings.get('sd_model_checkpoint')) is None:
            p.override_settings.pop('sd_model_checkpoint', None)
            sd_models.reload_model_weights()
        for k, v in p.override_settings.items():
            setattr(opts, k, v)
            ...
        res = process_images_inner(p)
    finally:
        # restore opts to original state
        if p.override_settings_restore_afterwards:
            for k, v in stored_opts.items():
                setattr(opts, k, v)
                ...
    return res

```
The global `opts` object is embedded as a total map `K → V`; overrides as an
association list (a Python dict iterated in insertion order); weight
reloading is I/O on the model collaborator with no effect on `opts`.
`process_images_inner` is a collaborator here, embedded as an arbitrary
function `inner` that may itself mutate `opts` and may raise (`none`). The
`finally` block runs on both exit paths; on the exception path the function
returns `none` in the second component, with the first component the `opts`
state left behind after the `finally` block. -/

def setattr_fold {K V : Type} [DecidableEq K] (o : K → V) (l : List (K × V)) : K → V :=
  l.foldl (fun acc kv => fun k => if k = kv.1 then kv.2 else acc k) o

def process_images {K V R : Type} [DecidableEq K]
    (checkpoint_key : K) (checkpoint_found : Option V → Bool)
    (override_settings_restore_afterwards : Bool)
    (override_settings : List (K × V))
    (inner : (K → V) → Option ((K → V) × R))
    (opts : K → V) : (K → V) × Option R :=
  let stored_opts : List (K × V) := override_settings.map fun kv => (kv.1, opts kv.1)
  let override_settings :=
    if checkpoint_found (override_settings.lookup checkpoint_key) then override_settings
    else override_settings.filter fun kv => kv.1 ≠ checkpoint_key
  let opts1 := setattr_fold opts override_settings
  let inner_result := inner opts1
  let opts2 := match inner_result with
    | some (o, _) => o
    | none => opts1
  let opts3 := if override_settings_restore_afterwards then
      setattr_fold opts2 stored_opts
    else opts2
  (opts3, inner_result.map Prod.snd)

/-! ### `create_random_tensors` (lines 208-268)

The noise tensors come from `devices.randn` / `devices.randn_without_seed`
and the torch global RNG, collaborators outside this file; their state is
threaded explicitly.  Latent tensors are an abstract type `T`; the tensor
operations the function applies to them (`slerp` on torch tensors, the
sub-rectangle assignment `x[:, ty:ty+h, tx:tx+w] = noise[:, dy:dy+h, dx:dx+w]`,
and `torch.stack`) are collaborator parameters. -/

/-- Modelled from the spec: the torch global random generator behind
`devices.randn` and `devices.randn_without_seed` (`modules/devices.py`, not
under `src/`).  The spec states the generator must "produce a reproducible
noise tensor using that seed as sole entropy source": `devices.randn(seed,
shape)` seeds the global generator (`torch.manual_seed(seed)`) and draws one
tensor, while `devices.randn_without_seed(shape)` draws from the generator in
whatever state it currently has.  `manual_seed seed` is the generator state
right after seeding; `draw shape g` returns the drawn tensor and the advanced
state. -/
structure TorchRNG (σ T : Type) where
  manual_seed : Int → σ
  draw : List Int → σ → T × σ

/-- `devices.randn(seed, shape)`: reseed, then draw (ignores the incoming
generator state). -/
def randn {σ T : Type} (rng : TorchRNG σ T) (seed : Int) (shape : List Int)
    (_g : σ) : T × σ :=
  rng.draw shape (rng.manual_seed seed)

/-- `devices.randn_without_seed(shape)`: draw from the current state. -/
def randn_without_seed {σ T : Type} (rng : TorchRNG σ T) (shape : List Int)
    (g : σ) : T × σ :=
  rng.draw shape g

/-- Collaborator tensor operations used by `create_random_tensors`. -/
structure TensorOps (T : Type) where
  slerpT : ℚ → T → T → T
  copy_region : T → T → Int × Int × Int × Int × Int × Int → T
  stack : List T → T

/-- Ambient option settings and sampler data read by the function:
`opts.eta_noise_seed_delta or 0`, `opts.enable_batch_seeds`, and
`p.sampler.number_of_needed_noises(p)` (present iff `p is not None and
p.sampler is not None`). -/
structure CRTConfig where
  eta_noise_seed_delta : Int
  enable_batch_seeds : Bool
  needed_noises : Option Nat

/-- Line 222: `noise_shape = shape if seed_resize_from_h <= 0 or
seed_resize_from_w <= 0 else (shape[0], seed_resize_from_h//8,
seed_resize_from_w//8)`. -/
def crt_noise_shape (shape : List Int)
    (seed_resize_from_h seed_resize_from_w : Int) : List Int :=
  if seed_resize_from_h ≤ 0 ∨ seed_resize_from_w ≤ 0 then shape
  else [shape.getD 0 0, seed_resize_from_h.fdiv 8, seed_resize_from_w.fdiv 8]

/-- One pass of the `for i, seed in enumerate(seeds)` loop body
(lines 221-262); the accumulator carries `xs`, `sampler_noises` and the
generator state. -/
def crt_step {σ T : Type} (rng : TorchRNG σ T) (ops : TensorOps T)
    (shape : List Int) (subseeds : Option (List Int)) (subseed_strength : ℚ)
    (seed_resize_from_h seed_resize_from_w : Int) (cfg : CRTConfig)
    (use_sampler_noises : Bool)
    (acc : List T × List (List T) × σ) (is : Nat × Int) :
    List T × List (List T) × σ :=
  let i := is.1
  let seed := is.2
  let noise_shape := crt_noise_shape shape seed_resize_from_h seed_resize_from_w
  let g0 := acc.2.2
  let sub : Option (T × σ) := match subseeds with
    | none => none
    | some subs =>
      some (randn rng (if subs.length ≤ i then 0 else subs.getD i 0) noise_shape g0)
  let g1 := match sub with
    | none => g0
    | some p => p.2
  let noisep := randn rng seed noise_shape g1
  let noise1 := match sub with
    | none => noisep.1
    | some p => ops.slerpT subseed_strength noisep.1 p.1
  let g2 := noisep.2
  let resized := decide (noise_shape ≠ shape)
  let xp := randn rng seed shape g2
  let dx := (shape.getD 2 0 - noise_shape.getD 2 0).fdiv 2
  let dy := (shape.getD 1 0 - noise_shape.getD 1 0).fdiv 2
  let w := if 0 ≤ dx then noise_shape.getD 2 0 else noise_shape.getD 2 0 + 2 * dx
  let h := if 0 ≤ dy then noise_shape.getD 1 0 else noise_shape.getD 1 0 + 2 * dy
  let tx := if dx < 0 then 0 else dx
  let ty := if dy < 0 then 0 else dy
  let dx2 := max (-dx) 0
  let dy2 := max (-dy) 0
  let noise2 := if resized then ops.copy_region xp.1 noise1 (ty, tx, dy2, dx2, h, w) else noise1
  let g3 := if resized then xp.2 else g2
  let sng : List (List T) × σ :=
    if use_sampler_noises then
      let cnt := cfg.needed_noises.getD 0
      let g4 := if 0 < cfg.eta_noise_seed_delta then
          rng.manual_seed (seed + cfg.eta_noise_seed_delta)
        else g3
      let drawn := (List.range cnt).foldl
        (fun (a : List T × σ) _ =>
          let tp := randn_without_seed rng noise_shape a.2
          (a.1 ++ [tp.1], tp.2))
        ([], g4)
      (List.zipWith (fun l t => l ++ [t]) acc.2.1 drawn.1, drawn.2)
    else (acc.2.1, g3)
  (acc.1 ++ [noise2], sng)

/-- Embedding of `create_random_tensors(shape, seeds, subseeds,
subseed_strength, seed_resize_from_h, seed_resize_from_w, p)`: returns the
stacked output tensor `x`, the optional `p.sampler.sampler_noises`
side-output, and the final generator state. -/
def create_random_tensors {σ T : Type} (rng : TorchRNG σ T) (ops : TensorOps T)
    (shape : List Int) (seeds : List Int) (subseeds : Option (List Int))
    (subseed_strength : ℚ) (seed_resize_from_h seed_resize_from_w : Int)
    (cfg : CRTConfig) (g : σ) : T × Option (List T) × σ :=
  let use_sampler_noises := match cfg.needed_noises with
    | some _ => (decide (1 < seeds.length) && cfg.enable_batch_seeds) ||
        decide (0 < cfg.eta_noise_seed_delta)
    | none => false
  let init_sampler_noises : List (List T) :=
    List.replicate (cfg.needed_noises.getD 0) []
  let r := seeds.enum.foldl
    (crt_step rng ops shape subseeds subseed_strength
      seed_resize_from_h seed_resize_from_w cfg use_sampler_noises)
    ([], init_sampler_noises, g)
  (ops.stack r.1,
   if use_sampler_noises then some (r.2.1.map ops.stack) else none,
   r.2.2)

/-- The noise tensor the loop body appends to `xs` for entry `(i, seed)`,
written without the generator state: every draw that contributes to it is
preceded by a reseed. -/
def crt_noise_of {σ T : Type} (rng : TorchRNG σ T) (ops : TensorOps T)
    (shape : List Int) (subseeds : Option (List Int)) (subseed_strength : ℚ)
    (seed_resize_from_h seed_resize_from_w : Int) (i : Nat) (seed : Int) : T :=
  let noise_shape := crt_noise_shape shape seed_resize_from_h seed_resize_from_w
  let sub : Option T := match subseeds with
    | none => none
    | some subs =>
      some (rng.draw noise_shape
        (rng.manual_seed (if subs.length ≤ i then 0 else subs.getD i 0))).1
  let noise0 := (rng.draw noise_shape (rng.manual_seed seed)).1
  let noise1 := match sub with
    | none => noise0
    | some subnoise => ops.slerpT subseed_strength noise0 subnoise
  let resized := decide (noise_shape ≠ shape)
  let x0 := (rng.draw shape (rng.manual_seed seed)).1
  let dx := (shape.getD 2 0 - noise_shape.getD 2 0).fdiv 2
  let dy := (shape.getD 1 0 - noise_shape.getD 1 0).fdiv 2
  let w := if 0 ≤ dx then noise_shape.getD 2 0 else noise_shape.getD 2 0 + 2 * dx
  let h := if 0 ≤ dy then noise_shape.getD 1 0 else noise_shape.getD 1 0 + 2 * dy
  let tx := if dx < 0 then 0 else dx
  let ty := if dy < 0 then 0 else dy
  let dx2 := max (-dx) 0
  let dy2 := max (-dy) 0
  if resized then ops.copy_region x0 noise1 (ty, tx, dy2, dx2, h, w) else noise1

/-! ### `slerp` (lines 194-205)

```python
def slerp(val, low, high):
    low_norm = low/torch.norm(low, dim=1, keepdim=True)
    high_norm = high/torch.norm(high, dim=1, keepdim=True)
    dot = (low_norm*high_norm).sum(1)

    if dot.mean() > 0.9995:
        return low * val + high * (1 - val)

    omega = torch.acos(dot)
    so = torch.sin(omega)
    res = (torch.sin((1.0-val)*omega)/so).unsqueeze(1)*low + (torch.sin(val*omega)/so).unsqueeze(1) * high
    return res
```
A 2-d tensor is a list of rows, each row a list of reals; `torch.norm(·,
dim=1)` is the per-row Euclidean norm, `.sum(1)` the per-row sum, `.mean()`
the mean over all rows, and the `unsqueeze(1)` products scale each row by
its own coefficient. -/

noncomputable def row_norm (r : List ℝ) : ℝ :=
  Real.sqrt ((r.map fun x => x * x).sum)

noncomputable def normalize_row (r : List ℝ) : List ℝ :=
  r.map fun x => x / row_norm r

def row_dot (a b : List ℝ) : ℝ :=
  (List.zipWith (fun x y => x * y) a b).sum

/-- `dot = (low_norm*high_norm).sum(1)`, one cosine similarity per row. -/
noncomputable def slerp_dot (low high : List (List ℝ)) : List ℝ :=
  List.zipWith (fun a b => row_dot (normalize_row a) (normalize_row b)) low high

noncomputable def list_mean (xs : List ℝ) : ℝ :=
  xs.sum / xs.length

/-- The near-parallel fallback `low * val + high * (1 - val)`, entrywise. -/
def slerp_lerp_branch (val : ℝ) (low high : List (List ℝ)) : List (List ℝ) :=
  List.zipWith (fun l h => List.zipWith (fun a b => a * val + b * (1 - val)) l h)
    low high

/-- The spherical branch: per row, `sin((1-val)*omega)/sin(omega) * low +
sin(val*omega)/sin(omega) * high` with `omega = acos(dot)` for that row. -/
noncomputable def slerp_main_branch (val : ℝ) (dot : List ℝ)
    (low high : List (List ℝ)) : List (List ℝ) :=
  List.zipWith (fun d lh =>
      List.zipWith (fun a b =>
        Real.sin ((1 - val) * Real.arccos d) / Real.sin (Real.arccos d) * a +
          Real.sin (val * Real.arccos d) / Real.sin (Real.arccos d) * b)
        lh.1 lh.2)
    dot (List.zipWith Prod.mk low high)

noncomputable def slerp (val : ℝ) (low high : List (List ℝ)) : List (List ℝ) :=
  let dot := slerp_dot low high
  if list_mean dot > 0.9995 then
    slerp_lerp_branch val low high
  else
    slerp_main_branch val dot low high

end ProcessingEx

namespace ProcessingEx

/-! ## Theorems -/

/-- C4: calling the conditioning cache twice in a row with an identical
`(prompts, steps)` key, starting from the fresh cell `[None, None]`, invokes
the compute function exactly once in total and both calls return the same
stored result; a further call with a different step count (or a different
prompt list) invokes the compute function again and stores the new key and
result. -/
theorem get_conds_with_caching_spec {P R : Type} [DecidableEq P]
    (function : List P → Nat → R) (prompts prompts2 : List P) (steps steps2 : Nat)
    (hne : (prompts2, steps2) ≠ (prompts, steps)) :
    -- exactly one invocation across the two identical calls, equal stored results
    (get_conds_with_caching function prompts steps (emptyCache P R)).2.2 +
      (get_conds_with_caching function prompts steps
        (get_conds_with_caching function prompts steps (emptyCache P R)).2.1).2.2 = 1 ∧
    (get_conds_with_caching function prompts steps (emptyCache P R)).1 =
      some (function prompts steps) ∧
    (get_conds_with_caching function prompts steps
        (get_conds_with_caching function prompts steps (emptyCache P R)).2.1).1 =
      (get_conds_with_caching function prompts steps (emptyCache P R)).1 ∧
    -- the changed key invokes the compute function again and stores key and result
    (get_conds_with_caching function prompts2 steps2
        (get_conds_with_caching function prompts steps
          (get_conds_with_caching function prompts steps (emptyCache P R)).2.1).2.1).2.2 = 1 ∧
    (get_conds_with_caching function prompts2 steps2
        (get_conds_with_caching function prompts steps
          (get_conds_with_caching function prompts steps (emptyCache P R)).2.1).2.1).1 =
      some (function prompts2 steps2) ∧
    (get_conds_with_caching function prompts2 steps2
        (get_conds_with_caching function prompts steps
          (get_conds_with_caching function prompts steps (emptyCache P R)).2.1).2.1).2.1 =
      ⟨some (prompts2, steps2), some (function prompts2 steps2)⟩ := by
  have h1 : get_conds_with_caching function prompts steps (emptyCache P R) =
      (some (function prompts steps),
        ⟨some (prompts, steps), some (function prompts steps)⟩, 1) := by
    simp [get_conds_with_caching, emptyCache]
  have h2 : get_conds_with_caching function prompts steps
      (⟨some (prompts, steps), some (function prompts steps)⟩ : CondCache P R) =
      (some (function prompts steps),
        ⟨some (prompts, steps), some (function prompts steps)⟩, 0) := by
    simp [get_conds_with_caching]
  have h3 : get_conds_with_caching function prompts2 steps2
      (⟨some (prompts, steps), some (function prompts steps)⟩ : CondCache P R) =
      (some (function prompts2 steps2),
        ⟨some (prompts2, steps2), some (function prompts2 steps2)⟩, 1) := by
    have hne' : ¬ ((some (prompts, steps) : Option (List P × Nat)) =
        some (prompts2, steps2)) := by
      simpa [eq_comm] using hne
    simp [get_conds_with_caching, hne']
  refine ⟨?_, ?_, ?_, ?_, ?_, ?_⟩ <;> simp [h1, h2, h3]

/-- Witness for C4 at a concrete instance: prompts `[1]` with steps `20`
twice, then steps `30`. -/
theorem get_conds_with_caching_spec_witness :
    ((([1] : List Nat), 30) ≠ (([1] : List Nat), 20)) ∧
    ((get_conds_with_caching (fun (_ : List Nat) s => s + 1) [1] 20
        (emptyCache Nat Nat)).2.2 +
      (get_conds_with_caching (fun _ s => s + 1) [1] 20
        (get_conds_with_caching (fun (_ : List Nat) s => s + 1) [1] 20
          (emptyCache Nat Nat)).2.1).2.2 = 1 ∧
    (get_conds_with_caching (fun (_ : List Nat) s => s + 1) [1] 20
        (emptyCache Nat Nat)).1 = some ((fun (_ : List Nat) s => s + 1) [1] 20) ∧
    (get_conds_with_caching (fun _ s => s + 1) [1] 20
        (get_conds_with_caching (fun (_ : List Nat) s => s + 1) [1] 20
          (emptyCache Nat Nat)).2.1).1 =
      (get_conds_with_caching (fun (_ : List Nat) s => s + 1) [1] 20
        (emptyCache Nat Nat)).1 ∧
    (get_conds_with_caching (fun _ s => s + 1) [1] 30
        (get_conds_with_caching (fun _ s => s + 1) [1] 20
          (get_conds_with_caching (fun (_ : List Nat) s => s + 1) [1] 20
            (emptyCache Nat Nat)).2.1).2.1).2.2 = 1 ∧
    (get_conds_with_caching (fun _ s => s + 1) [1] 30
        (get_conds_with_caching (fun _ s => s + 1) [1] 20
          (get_conds_with_caching (fun (_ : List Nat) s => s + 1) [1] 20
            (emptyCache Nat Nat)).2.1).2.1).1 =
      some ((fun (_ : List Nat) s => s + 1) [1] 30) ∧
    (get_conds_with_caching (fun _ s => s + 1) [1] 30
        (get_conds_with_caching (fun _ s => s + 1) [1] 20
          (get_conds_with_caching (fun (_ : List Nat) s => s + 1) [1] 20
            (emptyCache Nat Nat)).2.1).2.1).2.1 =
      ⟨some ([1], 30), some ((fun (_ : List Nat) s => s + 1) [1] 30)⟩) :=
  ⟨by decide, get_conds_with_caching_spec (fun _ s => s + 1) [1] [1] 20 30 (by decide)⟩

/-- C5: for every non-empty image list and non-empty mask list, after the
constructor's normalization `len(image_masks) == len(init_images)`; fewer
masks than images replicate the last mask to fill the gap, more masks are
truncated to the first `len(init_images)`; in particular 3 images with 1 mask
yield 3 identical masks and 3 images with 5 masks yield exactly the first 3. -/
theorem normalize_image_masks_spec {I M : Type} (init_images : List I)
    (ms : List M) (_hi : 0 < init_images.length) (hm : 0 < ms.length) :
    ∃ ms' : List M, normalize_image_masks init_images (some ms) = some ms' ∧
      ms'.length = init_images.length ∧
      (ms.length < init_images.length →
        ms' = ms ++ List.replicate (init_images.length - ms.length)
          (ms.getLast (List.length_pos.mp hm))) ∧
      (init_images.length ≤ ms.length → ms' = List.take init_images.length ms) := by
  by_cases hlt : ms.length < init_images.length
  · refine ⟨ms ++ List.replicate (init_images.length - ms.length)
      (ms.getLast (List.length_pos.mp hm)), ?_, ?_, fun _ => rfl, fun hle => ?_⟩
    · simp only [normalize_image_masks, dif_pos hm, if_pos hlt]
      congr 1
      apply List.take_of_length_le
      simp [Nat.add_sub_cancel' (le_of_lt hlt)]
    · simp [List.length_append, List.length_replicate,
        Nat.add_sub_cancel' (le_of_lt hlt)]
    · omega
  · push_neg at hlt
    refine ⟨List.take init_images.length ms, ?_, ?_, fun h => absurd h (by omega), fun _ => rfl⟩
    · simp [normalize_image_masks, dif_pos hm, if_neg (by omega : ¬ ms.length < init_images.length)]
    · simp [List.length_take, Nat.min_eq_left hlt]

/-- Witness for C5: the two concrete scenarios of the claim, 3 images with
1 mask and 3 images with 5 masks, obtained from the general theorem. -/
theorem normalize_image_masks_spec_witness :
    (0 < ([10, 20, 30] : List Nat).length ∧ 0 < ([7] : List Nat).length ∧
      normalize_image_masks ([10, 20, 30] : List Nat) (some ([7] : List Nat)) = some [7, 7, 7]) ∧
    (0 < ([10, 20, 30] : List Nat).length ∧ 0 < ([1, 2, 3, 4, 5] : List Nat).length ∧
      normalize_image_masks ([10, 20, 30] : List Nat)
        (some ([1, 2, 3, 4, 5] : List Nat)) = some [1, 2, 3]) := by
  refine ⟨⟨by decide, by decide, ?_⟩, ⟨by decide, by decide, ?_⟩⟩
  · obtain ⟨ms', h1, _, h3, _⟩ :=
      normalize_image_masks_spec ([10, 20, 30] : List Nat) ([7] : List Nat)
        (by decide) (by decide)
    rw [h1, h3 (by decide)]; rfl
  · obtain ⟨ms', h1, _, _, h4⟩ :=
      normalize_image_masks_spec ([10, 20, 30] : List Nat) ([1, 2, 3, 4, 5] : List Nat)
        (by decide) (by decide)
    rw [h1, h4 (by decide)]; rfl

theorem getD_map_range {α : Type} (f : Nat → α) (d : α) {num i : Nat} (hi : i < num) :
    ((List.range num).map f).getD i d = f i := by
  have hlen : i < ((List.range num).map f).length := by simpa using hi
  rw [List.getD_eq_getElem _ _ hlen]
  simp

/-- C9: with a scalar (non-list) seed, `all_seeds[i] = seed + i` when
`subseed_strength == 0` and `all_seeds[i] = seed` when
`subseed_strength != 0`; `all_subseeds[i] = subseed + i` in both cases. -/
theorem expand_all_seeds_spec (seed subseed : Int) (subseed_strength : ℚ)
    (num : Nat) (i : Nat) (hi : i < num) :
    (expand_all_seeds seed subseed_strength num).length = num ∧
    (subseed_strength = 0 →
      (expand_all_seeds seed subseed_strength num).getD i 0 = seed + i) ∧
    (subseed_strength ≠ 0 →
      (expand_all_seeds seed subseed_strength num).getD i 0 = seed) ∧
    (expand_all_subseeds subseed num).getD i 0 = subseed + i := by
  refine ⟨by simp [expand_all_seeds], fun h0 => ?_, fun h0 => ?_, ?_⟩
  · rw [expand_all_seeds, getD_map_range _ _ hi, if_pos h0]
  · rw [expand_all_seeds, getD_map_range _ _ hi, if_neg h0, Int.add_zero]
  · rw [expand_all_subseeds, getD_map_range _ _ hi]

/-- Witness for C9 at seed 100, subseed 500, strength 0 versus strength 1,
index 2 of 4. -/
theorem expand_all_seeds_spec_witness :
    (2 < 4 ∧ (expand_all_seeds 100 0 4).getD 2 0 = 102) ∧
    (2 < 4 ∧ (1 : ℚ) ≠ 0 ∧ (expand_all_seeds 100 1 4).getD 2 0 = 100) ∧
    (expand_all_subseeds 500 4).getD 2 0 = 502 := by
  have h1 := (expand_all_seeds_spec 100 500 0 4 2 (by norm_num)).2.1 rfl
  have h2 := (expand_all_seeds_spec 100 500 1 4 2 (by norm_num)).2.2.1 (by norm_num)
  have h3 := (expand_all_seeds_spec 100 500 0 4 2 (by norm_num)).2.2.2
  refine ⟨⟨by norm_num, by rw [h1]; norm_num⟩,
    ⟨by norm_num, by norm_num, by rw [h2]⟩, by rw [h3]; norm_num⟩

/-- C10: if the overlay list is `None` or the index is at least the number
of overlays, `apply_overlay` returns its input image unchanged, performing
no compositing. -/
theorem apply_overlay_spec {Img Ov : Type}
    (composite : Img → Option (Int × Int × Int × Int) → Ov → Img)
    (image : Img) (paste_loc : Option (Int × Int × Int × Int)) (index : Nat)
    (overlays : Option (List Ov))
    (h : overlays = none ∨ ∀ ovs, overlays = some ovs → ovs.length ≤ index) :
    apply_overlay composite image paste_loc index overlays = image := by
  rcases h with h | h
  · simp [apply_overlay, h]
  · cases overlays with
    | none => simp [apply_overlay]
    | some ovs =>
      have hle := h ovs rfl
      simp [apply_overlay, dif_neg (by omega : ¬ index < ovs.length)]

/-- Witness for C10: a compositing function that would change the image,
applied with index 3 against 2 overlays, leaves the image unchanged. -/
theorem apply_overlay_spec_witness :
    ((some [5, 6] : Option (List Nat)) = none ∨
      ∀ ovs, (some [5, 6] : Option (List Nat)) = some ovs → ovs.length ≤ 3) ∧
    apply_overlay (fun im _ ov => im + ov) (1 : Nat) none 3 (some [5, 6]) = 1 :=
  ⟨Or.inr (by intro ovs h; cases h; decide),
   apply_overlay_spec (fun im _ ov => im + ov) 1 none 3 (some [5, 6])
     (Or.inr (by intro ovs h; cases h; decide))⟩

/-- C6: with a binary keep-mask (`self.mask`, entries in {0,1}) and its
complement (`self.nmask = 1 - self.mask`), the post-sample recomposite
`samples * nmask + init_latent * mask` sets every entry where `mask = 1`
exactly to the corresponding entry of the init latent, and is idempotent. -/
theorem recomposite_spec {ι : Type} (mask nmask init_latent samples : ι → ℚ)
    (hbin : ∀ i, mask i = 0 ∨ mask i = 1)
    (hcompl : ∀ i, nmask i = 1 - mask i) :
    (∀ i, mask i = 1 → recomposite nmask mask init_latent samples i = init_latent i) ∧
    recomposite nmask mask init_latent (recomposite nmask mask init_latent samples) =
      recomposite nmask mask init_latent samples := by
  constructor
  · intro i h1
    simp [recomposite, hcompl i, h1]
  · funext i
    rcases hbin i with h | h <;> simp [recomposite, hcompl i, h]

/-- Witness for C6 on `Fin 2` latents with mask `[1, 0]`. -/
theorem recomposite_spec_witness :
    (∀ i : Fin 2, (fun j : Fin 2 => if j = 0 then (1 : ℚ) else 0) i = 0 ∨
      (fun j : Fin 2 => if j = 0 then (1 : ℚ) else 0) i = 1) ∧
    (∀ i : Fin 2, (fun j : Fin 2 => if j = 0 then (0 : ℚ) else 1) i =
      1 - (fun j : Fin 2 => if j = 0 then (1 : ℚ) else 0) i) ∧
    ((∀ i, (fun j : Fin 2 => if j = 0 then (1 : ℚ) else 0) i = 1 →
      recomposite (fun j : Fin 2 => if j = 0 then (0 : ℚ) else 1)
        (fun j => if j = 0 then 1 else 0) (fun j => 10 + j) (fun j => 20 + j) i =
        (fun j : Fin 2 => 10 + (j : ℚ)) i) ∧
    recomposite (fun j : Fin 2 => if j = 0 then (0 : ℚ) else 1)
        (fun j => if j = 0 then 1 else 0) (fun j => 10 + j)
        (recomposite (fun j : Fin 2 => if j = 0 then (0 : ℚ) else 1)
          (fun j => if j = 0 then 1 else 0) (fun j => 10 + j) (fun j => 20 + j)) =
      recomposite (fun j : Fin 2 => if j = 0 then (0 : ℚ) else 1)
        (fun j => if j = 0 then 1 else 0) (fun j => 10 + j) (fun j => 20 + j)) := by
  refine ⟨?_, ?_, recomposite_spec _ _ _ _ ?_ ?_⟩ <;>
    · intro i
      fin_cases i <;> norm_num

/-- C8: no grid is assembled when fewer than 2 images were produced and
grid-only-if-multiple is set; otherwise a grid is assembled whenever grid
return or grid save is enabled and the request does not disable grids, and
with grid return enabled the grid and its metadata entry are prepended and
`index_of_first_image` becomes 1; `index_of_first_image` is 0 in every run
where no grid is prepended. -/
theorem grid_stage_spec {T S : Type} (o : GridOpts) (do_not_save_grid : Bool)
    (image_grid : List T → T) (grid_infotext : S)
    (output_images : List T) (infotexts : List S) :
    let st := grid_stage o do_not_save_grid image_grid grid_infotext output_images infotexts
    (output_images.length < 2 ∧ o.grid_only_if_multiple = true →
      st.grid_assembled = false) ∧
    ((o.return_grid = true ∨ o.grid_save = true) → do_not_save_grid = false →
      ¬(output_images.length < 2 ∧ o.grid_only_if_multiple = true) →
      st.grid_assembled = true ∧
      (o.return_grid = true →
        st.output_images = image_grid output_images :: output_images ∧
        st.infotexts = grid_infotext :: infotexts ∧
        st.index_of_first_image = 1)) ∧
    (¬(st.grid_assembled = true ∧ o.return_grid = true) →
      st.index_of_first_image = 0) := by
  intro st
  by_cases hrg : o.return_grid = true <;>
    by_cases hgs : o.grid_save = true <;>
      by_cases hdns : do_not_save_grid = true <;>
        by_cases hlt : output_images.length < 2 <;>
          by_cases hoim : o.grid_only_if_multiple = true <;>
            simp_all [st, grid_stage]

/-- Witness for C8: two images, grid return enabled, grid save disabled,
only-if-multiple set, request does not disable grids. -/
theorem grid_stage_spec_witness :
    ((GridOpts.mk true false true).return_grid = true ∨
      (GridOpts.mk true false true).grid_save = true) ∧
    (false = false) ∧
    ¬(([4, 5] : List Nat).length < 2 ∧ (GridOpts.mk true false true).grid_only_if_multiple = true) ∧
    (grid_stage (GridOpts.mk true false true) false List.sum (9 : Nat) [4, 5] [7]).grid_assembled = true ∧
    (grid_stage (GridOpts.mk true false true) false List.sum (9 : Nat) [4, 5] [7]).output_images = [9, 4, 5] ∧
    (grid_stage (GridOpts.mk true false true) false List.sum (9 : Nat) [4, 5] [7]).infotexts = [9, 7] ∧
    (grid_stage (GridOpts.mk true false true) false List.sum (9 : Nat) [4, 5] [7]).index_of_first_image = 1 := by
  have h := (grid_stage_spec (GridOpts.mk true false true) false List.sum (9 : Nat)
    [4, 5] [7]).2.1 (Or.inl rfl) rfl (by decide)
  have h2 := h.2 rfl
  refine ⟨Or.inl rfl, rfl, by decide, h.1, ?_, ?_, h2.2.2⟩
  · rw [h2.1]; decide
  · rw [h2.2.1]

theorem run_iterations_interrupt_aux {P T : Type} (all_prompts : List P)
    (batch_size : Nat) (interrupted : Nat → Bool) (sample : Nat → List P → List T)
    (k : Nat) (hk : interrupted k = true) :
    ∀ fuel n, (∀ m, n ≤ m → m < k → interrupted m = false) →
      (∀ m, n ≤ m → m < k → (batch_slice all_prompts batch_size m).length ≠ 0) →
      n ≤ k → k ≤ n + fuel →
      run_iterations all_prompts batch_size interrupted sample n fuel =
        (List.range' n (k - n)).flatMap
          (fun m => sample m (batch_slice all_prompts batch_size m)) := by
  intro fuel
  induction fuel with
  | zero =>
    intro n _ _ hnk hkn
    have hkn' : k = n := le_antisymm (by omega) hnk
    subst hkn'
    simp [run_iterations]
  | succ fuel ih =>
    intro n hfalse hne hnk hkn
    by_cases hn : n = k
    · subst hn
      simp [run_iterations, hk]
    · have hlt : n < k := lt_of_le_of_ne hnk hn
      have hfn : interrupted n = false := hfalse n le_rfl hlt
      have hnn : (batch_slice all_prompts batch_size n).length ≠ 0 := hne n le_rfl hlt
      have hrange : k - n = (k - (n + 1)) + 1 := by omega
      rw [run_iterations, if_neg (by simp [hfn]), if_neg hnn, hrange,
        List.range'_succ, List.flatMap_cons,
        ih (n + 1) (fun m hm hmk => hfalse m (by omega) hmk)
          (fun m hm hmk => hne m (by omega) hmk) (by omega) (by omega)]

/-- C7: if the interruption flag reads false before iterations `0..k-1`
(each with a non-empty prompt slice) and true before iteration `k ≤ n_iter`,
the run performs exactly iterations `0..k-1`, collects exactly their outputs,
returns normally, and the result does not depend on what sampling at
iteration `k` or any later iteration would have produced. -/
theorem process_iterations_interrupt {P T : Type} (all_prompts : List P)
    (batch_size : Nat) (interrupted : Nat → Bool) (sample : Nat → List P → List T)
    (n_iter k : Nat) (hk : k ≤ n_iter) (hint : interrupted k = true)
    (hbefore : ∀ m, m < k → interrupted m = false)
    (hne : ∀ m, m < k → (batch_slice all_prompts batch_size m).length ≠ 0) :
    process_iterations all_prompts batch_size interrupted sample n_iter =
      (List.range k).flatMap (fun m => sample m (batch_slice all_prompts batch_size m)) ∧
    ∀ sample2 : Nat → List P → List T, (∀ m, m < k → sample2 m = sample m) →
      process_iterations all_prompts batch_size interrupted sample2 n_iter =
        process_iterations all_prompts batch_size interrupted sample n_iter := by
  have h1 := run_iterations_interrupt_aux all_prompts batch_size interrupted sample
    k hint n_iter 0 (fun m _ hm => hbefore m hm) (fun m _ hm => hne m hm)
    (Nat.zero_le k) (by omega)
  rw [Nat.sub_zero, ← List.range_eq_range'] at h1
  refine ⟨h1, fun sample2 hagree => ?_⟩
  have h2 := run_iterations_interrupt_aux all_prompts batch_size interrupted sample2
    k hint n_iter 0 (fun m _ hm => hbefore m hm) (fun m _ hm => hne m hm)
    (Nat.zero_le k) (by omega)
  rw [Nat.sub_zero, ← List.range_eq_range'] at h2
  show run_iterations all_prompts batch_size interrupted sample2 0 n_iter = _
  rw [h2, show process_iterations all_prompts batch_size interrupted sample n_iter =
    run_iterations all_prompts batch_size interrupted sample 0 n_iter from rfl, h1]
  exact List.flatMap_congr (fun m hm => by rw [hagree m (List.mem_range.mp hm)])

/-- Witness for C7: four prompts, batch size 2, two iterations, flag set
before iteration 1: only iteration 0's outputs are collected. -/
theorem process_iterations_interrupt_witness :
    (1 ≤ 2 ∧ (fun n => decide (n = 1)) 1 = true ∧
      (∀ m, m < 1 → (fun n => decide (n = 1)) m = false) ∧
      (∀ m, m < 1 → (batch_slice ([0, 1, 2, 3] : List Nat) 2 m).length ≠ 0)) ∧
    process_iterations ([0, 1, 2, 3] : List Nat) 2 (fun n => decide (n = 1))
      (fun n ps => ps.map (fun x => x + 10 * n)) 2 = [0, 1] := by
  refine ⟨⟨by decide, by decide, ?_, ?_⟩, ?_⟩
  · intro m hm; interval_cases m; decide
  · intro m hm; interval_cases m; decide
  · have h := (process_iterations_interrupt ([0, 1, 2, 3] : List Nat) 2
      (fun n => decide (n = 1)) (fun n ps => ps.map (fun x => x + 10 * n)) 2 1
      (by decide) (by decide)
      (fun m hm => by interval_cases m; decide)
      (fun m hm => by interval_cases m; decide)).1
    rw [h]
    decide

theorem setattr_fold_not_mem {K V : Type} [DecidableEq K] (l : List (K × V))
    (o : K → V) (k : K) (h : k ∉ l.map Prod.fst) : setattr_fold o l k = o k := by
  induction l generalizing o with
  | nil => rfl
  | cons p t ih =>
    have hk : k ≠ p.1 := by
      intro he
      exact h (by simp [he])
    rw [setattr_fold, List.foldl_cons]
    rw [show List.foldl (fun acc kv => fun j => if j = kv.1 then kv.2 else acc j)
      (fun j => if j = p.1 then p.2 else o j) t = setattr_fold (fun j => if j = p.1 then p.2 else o j) t
      from rfl]
    rw [ih _ (by intro hm; exact h (by simp [hm]))]
    simp [hk]

theorem setattr_fold_mem_const {K V : Type} [DecidableEq K] (l : List (K × V))
    (o : K → V) (k : K) (w : V) (hall : ∀ p ∈ l, p.1 = k → p.2 = w)
    (hmem : k ∈ l.map Prod.fst) : setattr_fold o l k = w := by
  induction l generalizing o with
  | nil => simp at hmem
  | cons p t ih =>
    rw [setattr_fold, List.foldl_cons]
    rw [show List.foldl (fun acc kv => fun j => if j = kv.1 then kv.2 else acc j)
      (fun j => if j = p.1 then p.2 else o j) t = setattr_fold (fun j => if j = p.1 then p.2 else o j) t
      from rfl]
    by_cases hmt : k ∈ t.map Prod.fst
    · exact ih _ (fun q hq => hall q (List.mem_cons_of_mem p hq)) hmt
    · have hkp : k = p.1 := by
        rcases List.mem_map.mp hmem with ⟨q, hq, hq1⟩
        rcases List.mem_cons.mp hq with hq | hq
        · rw [← hq1, hq]
        · exact absurd (List.mem_map.mpr ⟨q, hq, hq1⟩) hmt
      rw [setattr_fold_not_mem t _ k hmt]
      simp only [if_pos hkp]
      exact hall p (List.mem_cons_self p t) hkp.symm

/-- C2 counterexample: the claim omits the `override_settings_restore_afterwards`
guard.  With that flag false, an override of option key 1 (from value 0 to 5)
persists after `process_images` returns normally, so the overridden key does
not hold its pre-call value. -/
theorem process_images_restore_counterexample :
    (process_images (K := Nat) (V := Int) (R := Int) 0 (fun _ => true) false
      [(1, 5)] (fun o => some (o, 0)) (fun _ => 0)).1 1 = 5 ∧ (5 : Int) ≠ 0 :=
  ⟨rfl, by decide⟩

/-- C2 (amended): provided `override_settings_restore_afterwards` is set (the
default), every overridden option key holds its pre-call value after
`process_images` terminates, on the normal exit path and on the exceptional
one alike, whatever the inner processing did to the options. -/
theorem process_images_restore_spec {K V R : Type} [DecidableEq K]
    (checkpoint_key : K) (checkpoint_found : Option V → Bool)
    (override_settings : List (K × V))
    (inner : (K → V) → Option ((K → V) × R))
    (opts : K → V) (k : K) (hk : k ∈ override_settings.map Prod.fst) :
    (process_images checkpoint_key checkpoint_found true
      override_settings inner opts).1 k = opts k := by
  rw [process_images]
  simp only [if_pos rfl]
  apply setattr_fold_mem_const
  · intro p hp hpk
    rcases List.mem_map.mp hp with ⟨q, _, hq1⟩
    rw [← hq1] at hpk ⊢
    simp only at hpk ⊢
    rw [hpk]
  · rw [show (override_settings.map fun kv => (kv.1, opts kv.1)).map Prod.fst =
      override_settings.map Prod.fst by rw [List.map_map]; rfl]
    exact hk

/-- Witness for C2 (amended): key 1 overridden from 0 to 5, the inner run
additionally shifts every option by 100, restoration still returns key 1 to
its original value 0. -/
theorem process_images_restore_spec_witness :
    ((1 : Nat) ∈ ([((1 : Nat), (5 : Int))].map Prod.fst)) ∧
    (process_images (R := Int) 0 (fun _ => true) true [(1, 5)]
      (fun o => some (fun j => o j + 100, 0)) (fun _ => 0)).1 1 = 0 :=
  ⟨by decide, process_images_restore_spec 0 (fun _ => true) [(1, 5)]
    (fun o => some (fun j => o j + 100, 0)) (fun _ => 0) 1 (by decide)⟩

theorem crt_step_fst {σ T : Type} (rng : TorchRNG σ T) (ops : TensorOps T)
    (shape : List Int) (subseeds : Option (List Int)) (subseed_strength : ℚ)
    (seed_resize_from_h seed_resize_from_w : Int) (cfg : CRTConfig)
    (use_sampler_noises : Bool) (acc : List T × List (List T) × σ)
    (is : Nat × Int) :
    (crt_step rng ops shape subseeds subseed_strength seed_resize_from_h
        seed_resize_from_w cfg use_sampler_noises acc is).1 =
      acc.1 ++ [crt_noise_of rng ops shape subseeds subseed_strength
        seed_resize_from_h seed_resize_from_w is.1 is.2] := by
  cases subseeds <;> simp [crt_step, crt_noise_of, randn]

theorem crt_fold_fst {σ T : Type} (rng : TorchRNG σ T) (ops : TensorOps T)
    (shape : List Int) (subseeds : Option (List Int)) (subseed_strength : ℚ)
    (seed_resize_from_h seed_resize_from_w : Int) (cfg : CRTConfig)
    (use_sampler_noises : Bool) :
    ∀ (l : List (Nat × Int)) (acc : List T × List (List T) × σ),
      (l.foldl (crt_step rng ops shape subseeds subseed_strength
          seed_resize_from_h seed_resize_from_w cfg use_sampler_noises) acc).1 =
        acc.1 ++ l.map (fun is => crt_noise_of rng ops shape subseeds
          subseed_strength seed_resize_from_h seed_resize_from_w is.1 is.2) := by
  intro l
  induction l with
  | nil => intro acc; simp
  | cons p t ih =>
    intro acc
    rw [List.foldl_cons, ih, List.map_cons, crt_step_fst]
    simp

/-- C3: the output tensor of `create_random_tensors` is a function of the
arguments and the ambient option settings alone: it does not depend on the
incoming torch generator state (first conjunct, any two states), and in
particular a second call with identical arguments, made from whatever
generator state the first call left behind, returns a bit-identical output
tensor (second conjunct). -/
theorem create_random_tensors_deterministic {σ T : Type} (rng : TorchRNG σ T)
    (ops : TensorOps T) (shape : List Int) (seeds : List Int)
    (subseeds : Option (List Int)) (subseed_strength : ℚ)
    (seed_resize_from_h seed_resize_from_w : Int) (cfg : CRTConfig) (g1 g2 : σ) :
    (create_random_tensors rng ops shape seeds subseeds subseed_strength
        seed_resize_from_h seed_resize_from_w cfg g1).1 =
      (create_random_tensors rng ops shape seeds subseeds subseed_strength
        seed_resize_from_h seed_resize_from_w cfg g2).1 ∧
    (create_random_tensors rng ops shape seeds subseeds subseed_strength
        seed_resize_from_h seed_resize_from_w cfg
        (create_random_tensors rng ops shape seeds subseeds subseed_strength
          seed_resize_from_h seed_resize_from_w cfg g1).2.2).1 =
      (create_random_tensors rng ops shape seeds subseeds subseed_strength
        seed_resize_from_h seed_resize_from_w cfg g1).1 := by
  have key : ∀ g : σ,
      (create_random_tensors rng ops shape seeds subseeds subseed_strength
        seed_resize_from_h seed_resize_from_w cfg g).1 =
      ops.stack (seeds.enum.map fun is => crt_noise_of rng ops shape subseeds
        subseed_strength seed_resize_from_h seed_resize_from_w is.1 is.2) := by
    intro g
    simp only [create_random_tensors]
    rw [crt_fold_fst]
    simp
  exact ⟨by rw [key, key], by rw [key, key]⟩

theorem zipWith_row_left {f : ℝ → ℝ → ℝ} (hf : ∀ a b, f a b = a) :
    ∀ (l r : List ℝ), l.length = r.length → List.zipWith f l r = l := by
  intro l
  induction l with
  | nil => intro r _; rfl
  | cons a t ih =>
    intro r hlen
    cases r with
    | nil => simp at hlen
    | cons b s => simp [hf, ih s (by simpa using hlen)]

theorem zipWith_row_right {f : ℝ → ℝ → ℝ} (hf : ∀ a b, f a b = b) :
    ∀ (l r : List ℝ), l.length = r.length → List.zipWith f l r = r := by
  intro l
  induction l with
  | nil =>
    intro r hlen
    cases r with
    | nil => rfl
    | cons b s => simp at hlen
  | cons a t ih =>
    intro r hlen
    cases r with
    | nil => simp at hlen
    | cons b s => simp [hf, ih s (by simpa using hlen)]

theorem slerp_lerp_branch_zero {low high : List (List ℝ)}
    (hrows : List.Forall₂ (fun (l r : List ℝ) => l.length = r.length) low high) :
    slerp_lerp_branch 0 low high = high := by
  induction hrows with
  | nil => rfl
  | cons hR _ ih =>
    rw [slerp_lerp_branch, List.zipWith_cons_cons]
    rw [show ∀ l2 h2, List.zipWith (fun (l r : List ℝ) =>
      List.zipWith (fun a b => a * (0:ℝ) + b * (1 - 0)) l r) l2 h2 =
      slerp_lerp_branch 0 l2 h2 from fun _ _ => rfl, ih]
    rw [zipWith_row_right (fun a b => by ring) _ _ hR]

theorem slerp_lerp_branch_one {low high : List (List ℝ)}
    (hrows : List.Forall₂ (fun (l r : List ℝ) => l.length = r.length) low high) :
    slerp_lerp_branch 1 low high = low := by
  induction hrows with
  | nil => rfl
  | cons hR _ ih =>
    rw [slerp_lerp_branch, List.zipWith_cons_cons]
    rw [show ∀ l2 h2, List.zipWith (fun (l r : List ℝ) =>
      List.zipWith (fun a b => a * (1:ℝ) + b * (1 - 1)) l r) l2 h2 =
      slerp_lerp_branch 1 l2 h2 from fun _ _ => rfl, ih]
    rw [zipWith_row_left (fun a b => by ring) _ _ hR]

theorem slerp_main_branch_zero {low high : List (List ℝ)}
    (hrows : List.Forall₂ (fun (l r : List ℝ) => l.length = r.length) low high)
    (hsin : ∀ d ∈ slerp_dot low high, Real.sin (Real.arccos d) ≠ 0) :
    slerp_main_branch 0 (slerp_dot low high) low high = low := by
  induction hrows with
  | nil => rfl
  | @cons a b l r hR _ ih =>
    have hd : Real.sin (Real.arccos (row_dot (normalize_row a) (normalize_row b))) ≠ 0 :=
      hsin _ (by rw [slerp_dot, List.zipWith_cons_cons]; exact List.mem_cons_self _ _)
    rw [slerp_dot, List.zipWith_cons_cons] at hsin ⊢
    rw [slerp_main_branch, List.zipWith_cons_cons, List.zipWith_cons_cons]
    congr 1
    · exact zipWith_row_left (fun x y => by
        rw [sub_zero, one_mul, zero_mul, Real.sin_zero, zero_div, zero_mul,
          add_zero, div_self hd, one_mul]) _ _ hR
    · exact ih (fun d hdm => hsin d (List.mem_cons_of_mem _ hdm))

theorem slerp_main_branch_one {low high : List (List ℝ)}
    (hrows : List.Forall₂ (fun (l r : List ℝ) => l.length = r.length) low high)
    (hsin : ∀ d ∈ slerp_dot low high, Real.sin (Real.arccos d) ≠ 0) :
    slerp_main_branch 1 (slerp_dot low high) low high = high := by
  induction hrows with
  | nil => rfl
  | @cons a b l r hR _ ih =>
    have hd : Real.sin (Real.arccos (row_dot (normalize_row a) (normalize_row b))) ≠ 0 :=
      hsin _ (by rw [slerp_dot, List.zipWith_cons_cons]; exact List.mem_cons_self _ _)
    rw [slerp_dot, List.zipWith_cons_cons] at hsin ⊢
    rw [slerp_main_branch, List.zipWith_cons_cons, List.zipWith_cons_cons]
    congr 1
    · exact zipWith_row_right (fun x y => by
        rw [sub_self, zero_mul, Real.sin_zero, zero_div, zero_mul, zero_add,
          one_mul, div_self hd, one_mul]) _ _ hR
    · exact ih (fun d hdm => hsin d (List.mem_cons_of_mem _ hdm))

/-- C1 counterexample: for the nearly-parallel pair `low = [[3, 4]]`,
`high = [[6, 8]]` (cosine similarity of the normalized rows is 1 > 0.9995)
the fallback returns `low * 0 + high * (1 - 0) = high`, so
`slerp(0, low, high)` is not `low`. -/
theorem slerp_claim_counterexample :
    slerp 0 [[3, 4]] [[6, 8]] = [[6, 8]] ∧
    ([[(6 : ℝ), 8]] : List (List ℝ)) ≠ [[3, 4]] := by
  have h34 : row_norm [(3 : ℝ), 4] = 5 := by
    rw [row_norm]
    norm_num
    rw [show (25 : ℝ) = 5 ^ 2 by norm_num, Real.sqrt_sq (by norm_num : (0:ℝ) ≤ 5)]
  have h68 : row_norm [(6 : ℝ), 8] = 10 := by
    rw [row_norm]
    norm_num
    rw [show (100 : ℝ) = 10 ^ 2 by norm_num, Real.sqrt_sq (by norm_num : (0:ℝ) ≤ 10)]
  have hdot : slerp_dot [[(3 : ℝ), 4]] [[6, 8]] = [1] := by
    rw [slerp_dot]
    simp [normalize_row, row_dot, h34, h68]
    norm_num
  have hmean : list_mean (slerp_dot [[(3 : ℝ), 4]] [[6, 8]]) = 1 := by
    rw [hdot, list_mean]
    norm_num
  constructor
  · rw [slerp]
    simp only [hmean]
    rw [if_pos (by norm_num)]
    rw [slerp_lerp_branch]
    norm_num
  · intro hcontr
    have := congrArg (fun l => (l.headD []).headD 0) hcontr
    simp at this

/-- C1 (amended): when the near-parallel fallback is taken (mean cosine
similarity of the row-normalized inputs > 0.9995), `slerp` returns the
division-free linear interpolation `low * val + high * (1 - val)` — which
exchanges the endpoints: `slerp(0) = high` and `slerp(1) = low`; the endpoint
identities `slerp(0, low, high) = low` and `slerp(1, low, high) = high` hold
on the spherical branch (mean cosine similarity ≤ 0.9995) whenever each
row's sine of angle is nonzero. -/
theorem slerp_spec (val : ℝ) (low high : List (List ℝ))
    (hrows : List.Forall₂ (fun (l r : List ℝ) => l.length = r.length) low high) :
    (list_mean (slerp_dot low high) > 0.9995 →
      slerp val low high = slerp_lerp_branch val low high ∧
      slerp 0 low high = high ∧ slerp 1 low high = low) ∧
    (¬ list_mean (slerp_dot low high) > 0.9995 →
      (∀ d ∈ slerp_dot low high, Real.sin (Real.arccos d) ≠ 0) →
      slerp 0 low high = low ∧ slerp 1 low high = high) := by
  constructor
  · intro hmean
    refine ⟨?_, ?_, ?_⟩
    · rw [slerp, if_pos hmean]
    · rw [slerp, if_pos hmean]
      exact slerp_lerp_branch_zero hrows
    · rw [slerp, if_pos hmean]
      exact slerp_lerp_branch_one hrows
  · intro hmean hsin
    constructor
    · rw [slerp, if_neg hmean]
      exact slerp_main_branch_zero hrows hsin
    · rw [slerp, if_neg hmean]
      exact slerp_main_branch_one hrows hsin

/-- Witness for C1 (amended) at the orthogonal pair `low = [[1, 0]]`,
`high = [[0, 1]]`: the spherical branch is taken, its sine is 1, and the
endpoint identities hold. -/
theorem slerp_spec_witness :
    List.Forall₂ (fun (l r : List ℝ) => l.length = r.length) [[1, 0]] [[0, 1]] ∧
    ¬ list_mean (slerp_dot [[(1 : ℝ), 0]] [[0, 1]]) > 0.9995 ∧
    (∀ d ∈ slerp_dot [[(1 : ℝ), 0]] [[0, 1]], Real.sin (Real.arccos d) ≠ 0) ∧
    (slerp 0 [[(1 : ℝ), 0]] [[0, 1]] = [[1, 0]] ∧
      slerp 1 [[(1 : ℝ), 0]] [[0, 1]] = [[0, 1]]) := by
  have h10 : row_norm [(1 : ℝ), 0] = 1 := by
    rw [row_norm]
    norm_num
  have h01 : row_norm [(0 : ℝ), 1] = 1 := by
    rw [row_norm]
    norm_num
  have hdot : slerp_dot [[(1 : ℝ), 0]] [[0, 1]] = [0] := by
    rw [slerp_dot]
    simp [normalize_row, row_dot, h10, h01]
  have hrows : List.Forall₂ (fun (l r : List ℝ) => l.length = r.length)
      [[(1 : ℝ), 0]] [[0, 1]] := by
    refine List.Forall₂.cons ?_ List.Forall₂.nil
    simp
  have hmean : ¬ list_mean (slerp_dot [[(1 : ℝ), 0]] [[0, 1]]) > 0.9995 := by
    rw [hdot, list_mean]
    norm_num
  have hsin : ∀ d ∈ slerp_dot [[(1 : ℝ), 0]] [[0, 1]],
      Real.sin (Real.arccos d) ≠ 0 := by
    rw [hdot]
    intro d hd
    rw [List.mem_singleton] at hd
    subst hd
    rw [Real.arccos_zero, Real.sin_pi_div_two]
    norm_num
  exact ⟨hrows, hmean, hsin, (slerp_spec 0 _ _ hrows).2 hmean hsin⟩

end ProcessingEx
